import Mathlib

/-!
Shallow embedding of the session-coordination layer of the repository
(source file src/unnamed/part_001, a Node/Express/socket.io/MongoDB server).

The MongoDB document store is modelled explicitly:
* the global registry collection `games.games` is a `List Nat` of the `code`
  fields of its documents (part_001 line 76 inserts `{ code: gameCode }`);
* each per-session database `game-<code>` holds a `status` collection
  (a list of status documents; `findOne({})` is `List.head?`) and a
  `players` collection (a `List Player` in insertion order);
* `updateOne` / `deleteOne` act on the first document matching the filter;
* a player document carries exactly the fields the program ever writes or
  reads: `name`, `order`, `hashedKey`, `socketClientId`.  The fields `code`
  and `gameCode` are also read by the program (`authUser` filters the players
  collection by `code`, part_001 line 138; `getGameStatus` reads
  `player.gameCode`, line 166) but are never written on a player document,
  so they are modelled as `Option` fields that every write leaves `none`
  (a MongoDB filter `{code: n}` does not match a document without the field).

The sha256 hex digest is opaque to the program (only equality of digests is
ever inspected), so it is a parameter `hash : String → String` throughout.
-/

namespace Resistance

/-- One document of a per-session `players` collection.  Fields `code` and
`gameCode` are absent (`none`) on every document the program ever creates;
see the module comment. -/
structure Player where
  name : String
  order : Nat
  hashedKey : String
  socketClientId : Option String := none
  code : Option Nat := none
  gameCode : Option Nat := none
deriving DecidableEq, Repr

/-- One document of a per-session `status` collection (part_001 lines 71-75). -/
structure StatusDoc where
  playing : Bool
  lastSignificantChange : Int
deriving DecidableEq, Repr

/-- The per-session database `game-<code>`: its `status` and `players`
collections. -/
structure GameDb where
  status : List StatusDoc
  players : List Player
deriving DecidableEq, Repr

/-- A dropped or never-touched per-session database: both collections empty. -/
def emptyGameDb : GameDb := { status := [], players := [] }

/-- The whole document store: the global `games` registry (list of the `code`
fields of its documents) and every per-session database, indexed by code.
MongoDB materialises databases on first use, so an untouched code maps to
`emptyGameDb`. -/
structure DB where
  games : List Nat
  gameDbs : Nat → GameDb

/-- Point update of the per-session database map (what a write to database
`game-<c>` does). -/
def setGameDb (f : Nat → GameDb) (c : Nat) (g : GameDb) : Nat → GameDb :=
  fun d => if d = c then g else f d

/-- MongoDB `updateOne`: apply `f` to the first document matching filter `q`,
leave everything else alone. -/
def updateFirst {α : Type} (q : α → Bool) (f : α → α) : List α → List α
  | [] => []
  | x :: xs => if q x then f x :: xs else x :: updateFirst q f xs

/-- MongoDB `deleteOne`: remove the first document matching filter `q`. -/
def deleteFirst {α : Type} (q : α → Bool) : List α → List α
  | [] => []
  | x :: xs => if q x then xs else x :: deleteFirst q xs

/-- Errors thrown by the server: `user` is the source's `UserException`
(carrying `message` and `type`, part_001 lines 19-36); `internal` stands for
any non-`UserException` throw (a plain `Error` or a runtime `TypeError`). -/
inductive Err where
  | user (message : String) (type : String)
  | internal (message : String)
deriving DecidableEq, Repr

/-- The credential a client presents on `authRequest`
(`{gameCode, name, key}`). -/
structure AuthKey where
  gameCode : Nat
  name : String
  key : String
deriving DecidableEq, Repr

/-- Reply of a successful `authUser` (part_001 lines 146-150). -/
structure AuthReply where
  authenticated : Bool
  name : String
  gameCode : Nat
deriving DecidableEq, Repr

/-- Reply of a successful `joinGame` (part_001 lines 112-116). -/
structure JoinReply where
  gameCode : Nat
  name : String
  key : String
deriving DecidableEq, Repr

/-- Payload of a `removalRequest` event: the client sends a player object
carrying at least `name` and `gameCode` (part_001 lines 204-232 read both). -/
structure RemovalReq where
  name : String
  gameCode : Nat
deriving DecidableEq, Repr

/-- Value returned by a successful `removePlayer` (part_001 lines 228-231). -/
structure RemoveResult where
  playerToRemove : RemovalReq
  socketClientId : Option String
deriving DecidableEq, Repr

/-- `createGame` (part_001 lines 59-81) with the chosen fresh code made
explicit: the cap check throws a plain `Error` when more than 100000 games
exist; otherwise a status document `{playing: false, lastSignificantChange:
now}` is inserted into `game-<code>` and `{code}` into the registry.  The
`do/while` retry loop that guarantees freshness of the code is modelled at
the `Op` level (`execOp` only commits a code not already registered). -/
def createGame (db : DB) (gameCode : Nat) (now : Int) : DB × Except Err Nat :=
  if 100000 < db.games.length then
    (db, .error (.internal "There are too many games in progress to start a new one."))
  else
    let gdb := db.gameDbs gameCode
    let gdb2 : GameDb :=
      { gdb with status := gdb.status ++ [{ playing := false, lastSignificantChange := now }] }
    ({ games := db.games ++ [gameCode], gameDbs := setGameDb db.gameDbs gameCode gdb2 },
     .ok gameCode)

/-- `joinGame` (part_001 lines 83-117).  Checks in source order: registry
entry for the code, `status.playing !== false` (reading `.playing` of a
missing status document throws a `TypeError`), name already in use
(`findOne({name})`), roster already at 10; then inserts
`{name, order: count + 1, hashedKey: sha256hex(key)}` where `key` is the
fresh 32-byte random hex string (a parameter here). -/
def joinGame (hash : String → String) (db : DB) (name : String) (gameCode : Nat)
    (key : String) : DB × Except Err JoinReply :=
  let gdb := db.gameDbs gameCode
  if db.games.contains gameCode = false then
    (db, .error (.user ("The game " ++ toString gameCode ++ " does not exist.") ""))
  else
    match gdb.status.head? with
    | none => (db, .error (.internal "TypeError: cannot read playing of null"))
    | some st =>
      if st.playing then
        (db, .error (.user "Cannot join game. It is currently in progress." ""))
      else if (gdb.players.find? (fun p => p.name == name)).isSome then
        (db, .error (.user "Your chosen name is in use by another player. Please use another name." ""))
      else if 10 ≤ gdb.players.length then
        (db, .error (.user "There are already 10 players in this game" ""))
      else
        let newPlayer : Player :=
          { name := name, order := gdb.players.length + 1, hashedKey := hash key }
        let gdb2 : GameDb := { gdb with players := gdb.players ++ [newPlayer] }
        ({ db with gameDbs := setGameDb db.gameDbs gameCode gdb2 },
         .ok { gameCode := gameCode, name := name, key := key })

/-- `authUser` (part_001 lines 119-154).  Checks the registry, looks the
player up by name, then runs `updateOne(query, {$set:{socketClientId}})` on
the players collection — where `query` is still `{code: parseInt(gameCode)}`,
the registry filter, NOT a filter on `name` — and only afterwards compares
the digest of the supplied key with the stored `hashedKey`.  Note that the
update is executed before the digest check, and also on the `Unauthorized`
path, so the mutated store is returned with the error. -/
def authUser (hash : String → String) (db : DB) (socketClientId : String)
    (authKey : AuthKey) : DB × Except Err AuthReply :=
  if db.games.contains authKey.gameCode = false then
    (db, .error (.user "The game you are trying to enter does not exist" "authError"))
  else
    let gdb := db.gameDbs authKey.gameCode
    match gdb.players.find? (fun p => p.name == authKey.name) with
    | none => (db, .error (.user "You have not yet joined the game properly" "authError"))
    | some player =>
      let players2 := updateFirst (fun p => p.code == some authKey.gameCode)
        (fun p => { p with socketClientId := some socketClientId }) gdb.players
      let gdb2 : GameDb := { gdb with players := players2 }
      let db2 : DB := { db with gameDbs := setGameDb db.gameDbs authKey.gameCode gdb2 }
      if hash authKey.key == player.hashedKey then
        (db2, .ok { authenticated := true, name := authKey.name, gameCode := authKey.gameCode })
      else
        (db2, .error (.user "Unauthorized" "authError"))

/-- One roster entry of the status snapshot (part_001 lines 163-167): the
`map` builds `{name, order, gameCode: player.gameCode}`, and `gameCode` is
absent (`undefined`) on every player document the program creates. -/
structure PlayerView where
  name : String
  order : Nat
  gameCode : Option Nat
deriving DecidableEq, Repr

/-- What `getGameStatus` can produce: the lobby snapshot
`{playing: false, players}` or the caught-exception value `{error: ...}`. -/
inductive StatusPush where
  | snapshot (playing : Bool) (players : List PlayerView)
  | errorOut (message : String)
deriving DecidableEq, Repr

/-- `getGameStatus` (part_001 lines 156-179).  Reads the status document and
the roster; while not playing it returns the snapshot, while playing it
falls through and returns `undefined` (`none` here); any exception in the
`try` block — a store fault (the `fault` flag) or the `TypeError` from
reading `.playing` of a missing status document — is caught and converted to
the opaque `{error}` value. -/
def getGameStatus (gdb : GameDb) (fault : Bool) : Option StatusPush :=
  if fault then
    some (.errorOut "An unexpected error occurred")
  else
    match gdb.status.head? with
    | none => some (.errorOut "An unexpected error occurred")
    | some st =>
      if st.playing then none
      else
        some (.snapshot false
          (gdb.players.map fun p => { name := p.name, order := p.order, gameCode := p.gameCode }))

/-- `changeName` (part_001 lines 181-202).  Checks in source order: same
name, blank name, `status.playing` (a missing status document makes
`.playing` throw), current player exists; then
`updateOne({name: currentName}, {$set:{name: newName}})`.  No check that
`newName` is free. -/
def changeName (db : DB) (gameCode : Nat) (currentName newName : String) :
    DB × Except Err String :=
  if currentName == newName then
    (db, .error (.user "You entered the same name as your current name" ""))
  else if newName == "" then
    (db, .error (.user "You cannot have a blank name" ""))
  else
    let gdb := db.gameDbs gameCode
    match gdb.status.head? with
    | none => (db, .error (.internal "TypeError: cannot read playing of null"))
    | some st =>
      if st.playing then
        (db, .error (.user "Cannot changle player name while game in progress" ""))
      else
        match gdb.players.find? (fun p => p.name == currentName) with
        | none => (db, .error (.user "Your current player does not exist" ""))
        | some _ =>
          let players2 := updateFirst (fun p => p.name == currentName)
            (fun p => { p with name := newName }) gdb.players
          let gdb2 : GameDb := { gdb with players := players2 }
          ({ db with gameDbs := setGameDb db.gameDbs gameCode gdb2 }, .ok newName)

/-- `removePlayer` (part_001 lines 204-232).  `sessionCode` is the session
whose database the caller holds (`gameDb` in the socket handler, the
authenticated player's session); `req` is the client-supplied payload.
Reads status and target player, checks `status.playing` then existence,
`deleteOne({name})`, and if the roster became empty drops `game-<sessionCode>`
and deletes the registry entry matching `{code: req.gameCode}` — the code
taken from the request payload, not from the session. -/
def removePlayer (db : DB) (sessionCode : Nat) (req : RemovalReq) :
    DB × Except Err RemoveResult :=
  let gdb := db.gameDbs sessionCode
  match gdb.status.head? with
  | none => (db, .error (.internal "TypeError: cannot read playing of null"))
  | some st =>
    let target := gdb.players.find? (fun p => p.name == req.name)
    if st.playing then
      (db, .error (.user "Cannot remove player while game in progress" ""))
    else
      match target with
      | none => (db, .error (.user "The player you try to remove is not in game" ""))
      | some pl =>
        let players2 := deleteFirst (fun p => p.name == req.name) gdb.players
        if players2.length = 0 then
          ({ games := deleteFirst (fun c => c == req.gameCode) db.games,
             gameDbs := setGameDb db.gameDbs sessionCode emptyGameDb },
           .ok { playerToRemove := req, socketClientId := pl.socketClientId })
        else
          let gdb2 : GameDb := { gdb with players := players2 }
          ({ db with gameDbs := setGameDb db.gameDbs sessionCode gdb2 },
           .ok { playerToRemove := req, socketClientId := pl.socketClientId })

/-- The per-game status reads of one reaper tick (part_001 lines 297-312):
every listed game's status document is read; each read is wrapped in a
promise that REJECTS on a store fault, and the whole batch goes through
`Promise.all`, so one faulting read makes the entire batch an error.  A
missing status document is not a fault: `findOne` resolves `null`. -/
def readStatusesGo (db : DB) (fault : Nat → Bool) :
    List Nat → Except Unit (List (Nat × Option StatusDoc))
  | [] => .ok []
  | c :: cs =>
    if fault c then .error ()
    else
      match readStatusesGo db fault cs with
      | .error e => .error e
      | .ok rest => .ok ((c, (db.gameDbs c).status.head?) :: rest)

/-- Expiry test of the reaper (part_001 lines 316-317):
`!game.status || currentDate - game.status.lastSignificantChange > msToLive`. -/
def shouldDie (now ttl : Int) (st : Option StatusDoc) : Bool :=
  match st with
  | none => true
  | some s => decide (ttl < now - s.lastSignificantChange)

/-- The destruction a reaper tick performs for one listed game
(part_001 lines 318-322): drop `game-<code>` and delete its registry entry. -/
def dropStep (now ttl : Int) (acc : DB) (e : Nat × Option StatusDoc) : DB :=
  if shouldDie now ttl e.2 then
    { games := deleteFirst (fun c => c == e.1) acc.games,
      gameDbs := setGameDb acc.gameDbs e.1 emptyGameDb }
  else acc

/-- One tick of the expiry `setInterval` callback (part_001 lines 294-328).
If any status read rejects, the `Promise.all` rejects, the outer `catch`
logs the error and the tick destroys nothing; otherwise every game whose
status is missing or older than the TTL is dropped and deregistered. -/
def reaperTick (db : DB) (fault : Nat → Bool) (now ttl : Int) : DB :=
  match readStatusesGo db fault db.games with
  | .error _ => db
  | .ok statuses => statuses.foldl (dropStep now ttl) db

/-- The operations that mutate the store, for reachability statements.
`create` carries the code the retry loop settled on and the wall-clock time;
`tick` carries the reaper's fault oracle and clock. -/
inductive Op where
  | create (code : Nat) (now : Int)
  | join (name : String) (code : Nat) (key : String)
  | rename (sessionCode : Nat) (currentName newName : String)
  | remove (sessionCode : Nat) (req : RemovalReq)
  | auth (socketClientId : String) (authKey : AuthKey)
  | tick (fault : Nat → Bool) (now ttl : Int)

/-- Effect of one operation on the store.  For `create`, the source's
`do/while` loop never commits a code that is already registered, so a taken
code leaves the store untouched (the loop would have drawn again). -/
def execOp (hash : String → String) (db : DB) : Op → DB
  | .create code now => if db.games.contains code then db else (createGame db code now).1
  | .join name code key => (joinGame hash db name code key).1
  | .rename sessionCode currentName newName => (changeName db sessionCode currentName newName).1
  | .remove sessionCode req => (removePlayer db sessionCode req).1
  | .auth socketClientId authKey => (authUser hash db socketClientId authKey).1
  | .tick fault now ttl => reaperTick db fault now ttl

/-- Run a list of operations left to right. -/
def execOps (hash : String → String) (db : DB) (ops : List Op) : DB :=
  ops.foldl (execOp hash) db

/-- The store of a freshly started server: no registry entries, every
per-session database empty. -/
def initDB : DB := { games := [], gameDbs := fun _ => emptyGameDb }

/-- A store state the server can actually be in: produced from the initial
store by some sequence of operations. -/
def Reachable (hash : String → String) (db : DB) : Prop :=
  ∃ ops : List Op, db = execOps hash initDB ops


/-- Store invariant maintained by every operation: no session roster ever
exceeds ten players, and no player document ever carries a `code` field
(nothing in the program writes one). -/
def PlayersOK (db : DB) : Prop :=
  ∀ c : Nat, (db.gameDbs c).players.length ≤ 10 ∧
    ∀ p ∈ (db.gameDbs c).players, p.code = none

/-- Stand-in digest function for concrete evaluations; the program only ever
compares digests for equality, so any injective-on-the-inputs-used function
exercises the same paths as sha256 hex. -/
def demoHash (s : String) : String := "sha256:" ++ s

/-- A session 42 holding the single player Alice, joined with key k1. -/
def opsAlice : List Op := [.create 42 0, .join "Alice" 42 "k1"]

/-- The store after `opsAlice`. -/
def dbAlice : DB := execOps demoHash initDB opsAlice

/-- A session 7 holding Alice and Bob. -/
def opsPair : List Op := [.create 7 0, .join "Alice" 7 "ka", .join "Bob" 7 "kb"]

/-- The store after `opsPair`. -/
def dbPair : DB := execOps demoHash initDB opsPair

/-- A session 9 filled to capacity with ten players, the first named Alice. -/
def opsFull : List Op :=
  [.create 9 0, .join "Alice" 9 "k1", .join "B" 9 "k2", .join "C" 9 "k3", .join "D" 9 "k4",
   .join "E" 9 "k5", .join "F" 9 "k6", .join "G" 9 "k7", .join "H" 9 "k8", .join "I" 9 "k9",
   .join "J" 9 "k10"]

/-- The store after `opsFull`. -/
def dbFull : DB := execOps demoHash initDB opsFull

/-- A session 42 whose only player is Bob. -/
def opsSolo : List Op := [.create 42 0, .join "Bob" 42 "kb"]

/-- The store after `opsSolo`. -/
def dbSolo : DB := execOps demoHash initDB opsSolo

/-- Two sessions 1 and 2, both created at time 0. -/
def opsTwo : List Op := [.create 1 0, .create 2 0]

/-- The store after `opsTwo`. -/
def dbTwo : DB := execOps demoHash initDB opsTwo

/-- A fault oracle under which reading session 1 fails and every other read
succeeds. -/
def faultOne : Nat → Bool := fun c => c == 1

/-- Two sessions with different creation times: 1 at time 0, 2 at time 500. -/
def opsMix : List Op := [.create 1 0, .create 2 500]

/-- The store after `opsMix`. -/
def dbMix : DB := execOps demoHash initDB opsMix

/-- The fault oracle of a healthy store: every status read succeeds. -/
def noFault : Nat → Bool := fun _ => false

/-- A session 8 holding Bob and Alice, Bob joined first. -/
def opsPairR : List Op := [.create 8 0, .join "Bob" 8 "kb", .join "Alice" 8 "ka"]

/-- The store after `opsPairR`. -/
def dbPairR : DB := execOps demoHash initDB opsPairR

-- Equality of `Except` results is decidable whenever both components are;
-- used to evaluate concrete runs of the operations.
deriving instance DecidableEq for Except

theorem setGameDb_same (f : Nat → GameDb) (c : Nat) (g : GameDb) :
    setGameDb f c g c = g := by
  simp [setGameDb]

theorem setGameDb_ne (f : Nat → GameDb) {c d : Nat} (g : GameDb) (h : d ≠ c) :
    setGameDb f c g d = f d := by
  simp [setGameDb, h]

theorem updateFirst_cons_pos {α : Type} {q : α → Bool} {x : α} (f : α → α) (xs : List α)
    (h : q x = true) : updateFirst q f (x :: xs) = f x :: xs := by
  simp [updateFirst, h]

theorem updateFirst_cons_neg {α : Type} {q : α → Bool} {x : α} (f : α → α) (xs : List α)
    (h : q x = false) : updateFirst q f (x :: xs) = x :: updateFirst q f xs := by
  simp [updateFirst, h]

theorem deleteFirst_cons_pos {α : Type} {q : α → Bool} {x : α} (xs : List α)
    (h : q x = true) : deleteFirst q (x :: xs) = xs := by
  simp [deleteFirst, h]

theorem deleteFirst_cons_neg {α : Type} {q : α → Bool} {x : α} (xs : List α)
    (h : q x = false) : deleteFirst q (x :: xs) = x :: deleteFirst q xs := by
  simp [deleteFirst, h]

theorem updateFirst_length {α : Type} (q : α → Bool) (f : α → α) (l : List α) :
    (updateFirst q f l).length = l.length := by
  induction l with
  | nil => rfl
  | cons x xs ih =>
    cases hq : q x with
    | false => rw [updateFirst_cons_neg f xs hq, List.length_cons, List.length_cons, ih]
    | true => rw [updateFirst_cons_pos f xs hq, List.length_cons, List.length_cons]

theorem updateFirst_of_forall_neg {α : Type} {q : α → Bool} (f : α → α) :
    ∀ l : List α, (∀ x ∈ l, q x = false) → updateFirst q f l = l := by
  intro l
  induction l with
  | nil => intro _; rfl
  | cons x xs ih =>
    intro h
    rw [updateFirst_cons_neg f xs (h x (List.mem_cons_self x xs))]
    rw [ih (fun y hy => h y (List.mem_cons_of_mem x hy))]

theorem mem_updateFirst {α : Type} {q : α → Bool} {f : α → α} :
    ∀ {l : List α} {p : α}, p ∈ updateFirst q f l → p ∈ l ∨ ∃ x ∈ l, p = f x := by
  intro l
  induction l with
  | nil => intro p h; simp [updateFirst] at h
  | cons x xs ih =>
    intro p h
    cases hx : q x with
    | false =>
      rw [updateFirst_cons_neg f xs hx] at h
      rcases List.mem_cons.mp h with h2 | h2
      · exact Or.inl (h2 ▸ List.mem_cons_self x xs)
      · rcases ih h2 with h3 | ⟨y, hy, hpy⟩
        · exact Or.inl (List.mem_cons_of_mem x h3)
        · exact Or.inr ⟨y, List.mem_cons_of_mem x hy, hpy⟩
    | true =>
      rw [updateFirst_cons_pos f xs hx] at h
      rcases List.mem_cons.mp h with h2 | h2
      · exact Or.inr ⟨x, List.mem_cons_self x xs, h2⟩
      · exact Or.inl (List.mem_cons_of_mem x h2)

theorem deleteFirst_sublist {α : Type} (q : α → Bool) (l : List α) :
    List.Sublist (deleteFirst q l) l := by
  induction l with
  | nil => simp [deleteFirst]
  | cons x xs ih =>
    cases hq : q x with
    | false =>
      rw [deleteFirst_cons_neg xs hq]
      exact ih.cons₂ x
    | true =>
      rw [deleteFirst_cons_pos xs hq]
      exact List.sublist_cons_self x xs

theorem mem_of_mem_deleteFirst {α : Type} {q : α → Bool} {l : List α} {p : α}
    (h : p ∈ deleteFirst q l) : p ∈ l :=
  (deleteFirst_sublist q l).subset h

theorem nodup_deleteFirst {α : Type} {q : α → Bool} {l : List α} (h : l.Nodup) :
    (deleteFirst q l).Nodup :=
  h.sublist (deleteFirst_sublist q l)

theorem mem_deleteFirst_iff_of_ne {c d : Nat} (h : d ≠ c) :
    ∀ {l : List Nat}, (d ∈ deleteFirst (fun x => x == c) l ↔ d ∈ l) := by
  intro l
  induction l with
  | nil => simp [deleteFirst]
  | cons x xs ih =>
    cases hx : x == c with
    | false =>
      rw [@deleteFirst_cons_neg Nat (fun y => y == c) x xs hx, List.mem_cons, List.mem_cons, ih]
    | true =>
      have hxc : x = c := by simpa using hx
      have hdx : d ≠ x := fun hh => h (hh.trans hxc)
      rw [@deleteFirst_cons_pos Nat (fun y => y == c) x xs hx, List.mem_cons]
      constructor
      · exact fun hm => Or.inr hm
      · rintro (hdx2 | hm)
        · exact absurd hdx2 hdx
        · exact hm

theorem not_mem_deleteFirst_self {c : Nat} :
    ∀ {l : List Nat}, l.Nodup → c ∉ deleteFirst (fun x => x == c) l := by
  intro l
  induction l with
  | nil => intro _; simp [deleteFirst]
  | cons x xs ih =>
    intro hnd
    rcases List.nodup_cons.mp hnd with ⟨hx, hxs⟩
    cases hq : x == c with
    | false =>
      rw [@deleteFirst_cons_neg Nat (fun y => y == c) x xs hq]
      intro hm
      rcases List.mem_cons.mp hm with hcx | hm2
      · have hxc2 : x = c := hcx.symm
        rw [hxc2] at hq
        simp at hq
      · exact ih hxs hm2
    | true =>
      have hxc : x = c := by simpa using hq
      rw [@deleteFirst_cons_pos Nat (fun y => y == c) x xs hq]
      exact fun hm => hx (hxc ▸ hm)

theorem find?_append_first {α : Type} {q : α → Bool} {l₂ : List α} {a : α} :
    ∀ {l₁ : List α}, (∀ x ∈ l₁, q x = false) → q a = true →
      (l₁ ++ a :: l₂).find? q = some a := by
  intro l₁
  induction l₁ with
  | nil =>
    intro _ ha
    simpa using List.find?_cons_of_pos l₂ ha
  | cons x xs ih =>
    intro h1 ha
    have hx := h1 x (List.mem_cons_self x xs)
    rw [List.cons_append, List.find?_cons_of_neg _ (by simp [hx])]
    exact ih (fun y hy => h1 y (List.mem_cons_of_mem x hy)) ha

theorem find?_decomp {α : Type} {q : α → Bool} {a : α} :
    ∀ {l : List α}, l.find? q = some a →
    ∃ l₁ l₂, l = l₁ ++ a :: l₂ ∧ (∀ x ∈ l₁, q x = false) ∧ q a = true ∧
      (∀ f, updateFirst q f l = l₁ ++ f a :: l₂) ∧
      deleteFirst q l = l₁ ++ l₂ := by
  intro l
  induction l with
  | nil => intro h; simp [List.find?] at h
  | cons x xs ih =>
    intro h
    cases hx : q x with
    | false =>
      rw [List.find?_cons_of_neg xs (by simp [hx])] at h
      rcases ih h with ⟨l₁, l₂, hdec, hneg, ha, hupd, hdel⟩
      refine ⟨x :: l₁, l₂, by simp [hdec], ?_, ha, ?_, ?_⟩
      · intro y hy
        rcases List.mem_cons.mp hy with hyx | hym
        · exact hyx ▸ hx
        · exact hneg y hym
      · intro f
        rw [updateFirst_cons_neg f xs hx, hupd f, List.cons_append]
      · rw [deleteFirst_cons_neg xs hx, hdel, List.cons_append]
    | true =>
      have hax : a = x := by
        rw [List.find?_cons_of_pos xs hx] at h
        exact (Option.some.inj h).symm
      subst hax
      exact ⟨[], xs, by simp, by simp, hx,
        fun f => by rw [updateFirst_cons_pos f xs hx]; rfl,
        by rw [deleteFirst_cons_pos xs hx]; rfl⟩

theorem playersOK_setGameDb {db : DB} (h : PlayersOK db) {c : Nat} {g : GameDb}
    (hlen : g.players.length ≤ 10) (hcode : ∀ p ∈ g.players, p.code = none)
    (games2 : List Nat) : PlayersOK ⟨games2, setGameDb db.gameDbs c g⟩ := by
  intro d
  by_cases hdc : d = c
  · subst hdc
    refine ⟨?_, ?_⟩ <;> simp only [setGameDb_same]
    · exact hlen
    · exact hcode
  · have hd := h d
    refine ⟨?_, ?_⟩ <;> simp only [setGameDb_ne _ _ hdc]
    · exact hd.1
    · exact hd.2

theorem createGame_playersOK (db : DB) (code : Nat) (now : Int) (h : PlayersOK db) :
    PlayersOK (createGame db code now).1 := by
  simp only [createGame]
  split
  · exact h
  · refine playersOK_setGameDb h ?_ ?_ _
    · exact (h code).1
    · exact (h code).2

theorem joinGame_playersOK (hash : String → String) (db : DB) (name : String)
    (gameCode : Nat) (key : String) (h : PlayersOK db) :
    PlayersOK (joinGame hash db name gameCode key).1 := by
  simp only [joinGame]
  split
  · exact h
  · split
    · exact h
    · split
      · exact h
      · split
        · exact h
        · split
          · exact h
          · rename_i hcap
            refine playersOK_setGameDb h ?_ ?_ _
            · simp only [List.length_append, List.length_cons, List.length_nil]
              omega
            · intro p hp
              rcases List.mem_append.mp hp with hp2 | hp2
              · exact (h gameCode).2 p hp2
              · rcases List.mem_singleton.mp hp2 with rfl
                rfl

theorem authUser_playersOK (hash : String → String) (db : DB) (socketClientId : String)
    (authKey : AuthKey) (h : PlayersOK db) :
    PlayersOK (authUser hash db socketClientId authKey).1 := by
  simp only [authUser]
  split
  · exact h
  · split
    · exact h
    · split
      all_goals
        refine playersOK_setGameDb h ?_ ?_ _
      all_goals
        try
          first
          | (rw [updateFirst_length]; exact (h authKey.gameCode).1)
          | (intro p hp
             rcases mem_updateFirst hp with hp2 | ⟨x, hx, rfl⟩
             · exact (h authKey.gameCode).2 p hp2
             · exact (h authKey.gameCode).2 x hx)

theorem changeName_playersOK (db : DB) (gameCode : Nat) (currentName newName : String)
    (h : PlayersOK db) : PlayersOK (changeName db gameCode currentName newName).1 := by
  simp only [changeName]
  split
  · exact h
  · split
    · exact h
    · split
      · exact h
      · split
        · exact h
        · split
          · exact h
          · refine playersOK_setGameDb h ?_ ?_ _
            · rw [updateFirst_length]
              exact (h gameCode).1
            · intro p hp
              rcases mem_updateFirst hp with hp2 | ⟨x, hx, rfl⟩
              · exact (h gameCode).2 p hp2
              · exact (h gameCode).2 x hx

theorem removePlayer_playersOK (db : DB) (sessionCode : Nat) (req : RemovalReq)
    (h : PlayersOK db) : PlayersOK (removePlayer db sessionCode req).1 := by
  simp only [removePlayer]
  split
  · exact h
  · split
    · exact h
    · split
      · exact h
      · split
        · refine playersOK_setGameDb h ?_ ?_ _ <;> simp [emptyGameDb]
        · refine playersOK_setGameDb h ?_ ?_ _
          · exact le_trans (deleteFirst_sublist _ _).length_le (h sessionCode).1
          · intro p hp
            exact (h sessionCode).2 p (mem_of_mem_deleteFirst hp)

theorem dropStep_playersOK (now ttl : Int) (acc : DB) (e : Nat × Option StatusDoc)
    (h : PlayersOK acc) : PlayersOK (dropStep now ttl acc e) := by
  simp only [dropStep]
  split
  · refine playersOK_setGameDb h ?_ ?_ _ <;> simp [emptyGameDb]
  · exact h

theorem foldl_dropStep_playersOK (now ttl : Int) :
    ∀ (es : List (Nat × Option StatusDoc)) (acc : DB), PlayersOK acc →
      PlayersOK (es.foldl (dropStep now ttl) acc) := by
  intro es
  induction es with
  | nil => intro acc h; exact h
  | cons e es ih =>
    intro acc h
    exact ih _ (dropStep_playersOK now ttl acc e h)

theorem reaperTick_playersOK (db : DB) (fault : Nat → Bool) (now ttl : Int)
    (h : PlayersOK db) : PlayersOK (reaperTick db fault now ttl) := by
  simp only [reaperTick]
  split
  · exact h
  · exact foldl_dropStep_playersOK now ttl _ db h

theorem execOp_playersOK (hash : String → String) (db : DB) (op : Op)
    (h : PlayersOK db) : PlayersOK (execOp hash db op) := by
  cases op with
  | create code now =>
    by_cases hc : code ∈ db.games
    · simpa [execOp, hc] using h
    · simpa [execOp, hc] using createGame_playersOK db code now h
  | join name code key => simpa [execOp] using joinGame_playersOK hash db name code key h
  | rename sessionCode currentName newName =>
    simpa [execOp] using changeName_playersOK db sessionCode currentName newName h
  | remove sessionCode req => simpa [execOp] using removePlayer_playersOK db sessionCode req h
  | auth socketClientId authKey =>
    simpa [execOp] using authUser_playersOK hash db socketClientId authKey h
  | tick fault now ttl => simpa [execOp] using reaperTick_playersOK db fault now ttl h

theorem execOps_playersOK (hash : String → String) :
    ∀ (ops : List Op) (db : DB), PlayersOK db → PlayersOK (execOps hash db ops) := by
  intro ops
  induction ops with
  | nil => intro db h; exact h
  | cons op ops ih =>
    intro db h
    exact ih _ (execOp_playersOK hash db op h)

theorem initDB_playersOK : PlayersOK initDB := by
  intro c
  constructor <;> simp [initDB, emptyGameDb]

theorem reachable_playersOK {hash : String → String} {db : DB}
    (h : Reachable hash db) : PlayersOK db := by
  rcases h with ⟨ops, rfl⟩
  exact execOps_playersOK hash ops initDB initDB_playersOK


/-- C3: the claim states that every successful authenticate(connectionId,
credential) call leaves the matched Player record with its stored connection
identifier set to connectionId.  In the code the binding `updateOne` reuses
the registry query `{code: parseInt(gameCode)}` as its filter on the players
collection; no player document carries a `code` field, so the update matches
nothing.  Concretely: on `dbAlice`, Alice authenticates successfully with her
key, yet her stored `socketClientId` is still `none` afterwards. -/
theorem auth_success_does_not_bind_connection :
    (authUser demoHash dbAlice "conn-1" ⟨42, "Alice", "k1"⟩).2 =
      .ok { authenticated := true, name := "Alice", gameCode := 42 } ∧
    ((authUser demoHash dbAlice "conn-1" ⟨42, "Alice", "k1"⟩).1.gameDbs 42).players.map
      Player.socketClientId = [none] := by
  decide

/-- C4: the claim states that no sequence of join, changeName and
removePlayer operations ever produces two same-named Player records in one
session.  The code enforces the name check on join (first conjunct) but
`changeName` never checks that the new name is free: renaming Alice to Bob
in a session already containing Bob succeeds and yields a reachable store
whose session 7 roster is two players both named Bob. -/
theorem rename_creates_duplicate_names :
    (joinGame demoHash dbPair "Bob" 7 "kx").2 =
      .error (.user "Your chosen name is in use by another player. Please use another name." "") ∧
    (changeName dbPair 7 "Alice" "Bob").2 = .ok "Bob" ∧
    ((changeName dbPair 7 "Alice" "Bob").1.gameDbs 7).players.map Player.name =
      ["Bob", "Bob"] ∧
    Reachable demoHash (changeName dbPair 7 "Alice" "Bob").1 := by
  refine ⟨by decide, by decide, by decide, ⟨opsPair ++ [Op.rename 7 "Alice" "Bob"], by rfl⟩⟩

/-- C6 counterexample: the claim states that every successful removePlayer
that empties a session removes both the per-session records and the global
registry entry, so that a later authenticate with that session code fails
with the session-does-not-exist error.  The registry delete uses the
client-supplied `playerToRemove.gameCode`: removing Bob (the last player of
session 42) with a payload carrying gameCode 999 succeeds and drops the
session database, but session 42's registry entry survives, and a subsequent
authenticate with code 42 fails with the not-joined error instead. -/
theorem remove_last_player_mismatched_code :
    (dbSolo.gameDbs 42).players.length = 1 ∧
    (removePlayer dbSolo 42 ⟨"Bob", 999⟩).2 =
      .ok { playerToRemove := ⟨"Bob", 999⟩, socketClientId := none } ∧
    (removePlayer dbSolo 42 ⟨"Bob", 999⟩).1.games = [42] ∧
    (removePlayer dbSolo 42 ⟨"Bob", 999⟩).1.gameDbs 42 = emptyGameDb ∧
    (authUser demoHash (removePlayer dbSolo 42 ⟨"Bob", 999⟩).1 "c9" ⟨42, "Bob", "kb"⟩).2 =
      .error (.user "You have not yet joined the game properly" "authError") := by
  decide

/-- C8 counterexample: the claim states that a failure while reading one
session's status does not abort the processing of the other sessions of the
same sweep.  In the code every per-session read promise rejects into one
`Promise.all`, so a single faulting read aborts the whole tick: with
sessions 1 and 2 both long expired, a read fault on session 1 alone leaves
the store untouched — session 2 is readable and expired yet survives. -/
theorem reaper_fault_aborts_sweep_counterexample :
    faultOne 2 = false ∧
    shouldDie 1000 10 ((dbTwo.gameDbs 2).status.head?) = true ∧
    reaperTick dbTwo faultOne 1000 10 = dbTwo ∧
    2 ∈ (reaperTick dbTwo faultOne 1000 10).games := by
  refine ⟨rfl, by decide, rfl, ?_⟩
  show 2 ∈ dbTwo.games
  decide

theorem setGameDb_players_eq {db : DB} {code : Nat} {g : GameDb}
    (hg : g.players = (db.gameDbs code).players) (c : Nat) :
    (setGameDb db.gameDbs code g c).players = (db.gameDbs c).players := by
  by_cases hc : c = code
  · subst hc
    rw [setGameDb_same, hg]
  · rw [setGameDb_ne _ _ hc]

theorem authUser_preserves_players (hash : String → String) (db : DB) (cid : String)
    (ak : AuthKey) (hcode : ∀ p ∈ (db.gameDbs ak.gameCode).players, p.code = none) :
    ∀ c, ((authUser hash db cid ak).1.gameDbs c).players = (db.gameDbs c).players := by
  intro c
  simp only [authUser]
  split
  · rfl
  · split
    · rfl
    · have hid : updateFirst (fun p => p.code == some ak.gameCode)
          (fun p => { p with socketClientId := some cid }) (db.gameDbs ak.gameCode).players =
          (db.gameDbs ak.gameCode).players := by
        refine updateFirst_of_forall_neg _ _ ?_
        intro x hx
        rw [hcode x hx]
        rfl
      split
      · exact setGameDb_players_eq hid c
      · exact setGameDb_players_eq hid c

/-- C1: a failed authenticate call — session missing, player missing, or
digest mismatch — durably modifies no Player record: on any reachable store,
every session's roster (in particular every stored connection identifier) is
exactly what it was before the call.  (In this code base the binding update
matches no player document at all, so nothing is ever written before, or
after, the secret check.) -/
theorem auth_failure_preserves_connection_bindings {hash : String → String} {db : DB}
    (hre : Reachable hash db) (cid : String) (ak : AuthKey) (e : Err)
    (_hfail : (authUser hash db cid ak).2 = .error e) :
    ∀ c, ((authUser hash db cid ak).1.gameDbs c).players = (db.gameDbs c).players :=
  authUser_preserves_players hash db cid ak ((reachable_playersOK hre ak.gameCode).2)

/-- Witness for C1: on the concrete reachable store `dbAlice`, authenticating
Alice with a wrong key fails with the Unauthorized auth error and leaves the
session 42 roster untouched. -/
theorem auth_failure_preserves_connection_bindings_witness :
    (authUser demoHash dbAlice "c1" ⟨42, "Alice", "bad"⟩).2 =
      .error (.user "Unauthorized" "authError") ∧
    ((authUser demoHash dbAlice "c1" ⟨42, "Alice", "bad"⟩).1.gameDbs 42).players =
      (dbAlice.gameDbs 42).players :=
  ⟨by decide,
   auth_failure_preserves_connection_bindings ⟨opsAlice, rfl⟩ "c1" ⟨42, "Alice", "bad"⟩
     (.user "Unauthorized" "authError") (by decide) 42⟩

/-- C2: authenticate succeeds — returning `{authenticated, name, gameCode}`
with the credential's name and code — precisely when the session code is
registered, a player document with the credential's name is found, and the
digest of the supplied key equals that player's stored `hashedKey`; and every
failing case is a `UserException` whose `type` is the machine-readable
`"authError"`. -/
theorem auth_success_iff_digest_matches (hash : String → String) (db : DB) (cid : String)
    (ak : AuthKey) :
    ((∃ a, (authUser hash db cid ak).2 = .ok a) ↔
      (ak.gameCode ∈ db.games ∧
        ∃ p, (db.gameDbs ak.gameCode).players.find? (fun q => q.name == ak.name) = some p ∧
          hash ak.key = p.hashedKey)) ∧
    (∀ a, (authUser hash db cid ak).2 = .ok a →
      a = { authenticated := true, name := ak.name, gameCode := ak.gameCode }) ∧
    (∀ e, (authUser hash db cid ak).2 = .error e → ∃ m, e = .user m "authError") := by
  simp only [authUser]
  split
  · rename_i hcon
    have hmem : ak.gameCode ∉ db.games := by simpa using hcon
    refine ⟨⟨?_, ?_⟩, ?_, ?_⟩
    · rintro ⟨a, ha⟩
      simp at ha
    · rintro ⟨hm, _⟩
      exact absurd hm hmem
    · intro a ha
      simp at ha
    · intro e he
      simp only [Prod.snd] at he
      exact ⟨"The game you are trying to enter does not exist", (Except.error.inj he).symm⟩
  · rename_i hcon
    have hmem : ak.gameCode ∈ db.games := by simpa using hcon
    split
    · rename_i hfind
      refine ⟨⟨?_, ?_⟩, ?_, ?_⟩
      · rintro ⟨a, ha⟩
        simp at ha
      · rintro ⟨-, p, hp, -⟩
        rw [hfind] at hp
        cases hp
      · intro a ha
        simp at ha
      · intro e he
        simp only [Prod.snd] at he
        exact ⟨"You have not yet joined the game properly", (Except.error.inj he).symm⟩
    · rename_i player hfind
      split
      · rename_i hdig
        refine ⟨⟨?_, ?_⟩, ?_, ?_⟩
        · intro _
          exact ⟨hmem, player, hfind, by simpa using hdig⟩
        · intro _
          exact ⟨{ authenticated := true, name := ak.name, gameCode := ak.gameCode }, rfl⟩
        · intro a ha
          simp only [Prod.snd] at ha
          exact (Except.ok.inj ha).symm
        · intro e he
          simp at he
      · rename_i hdig
        refine ⟨⟨?_, ?_⟩, ?_, ?_⟩
        · rintro ⟨a, ha⟩
          simp at ha
        · rintro ⟨-, p, hp, hkey⟩
          rw [hfind] at hp
          rcases Option.some.inj hp with rfl
          exact (hdig (by simpa using hkey)).elim
        · intro a ha
          simp at ha
        · intro e he
          simp only [Prod.snd] at he
          exact ⟨"Unauthorized", (Except.error.inj he).symm⟩

/-- Witness for C2: on the concrete store `dbAlice`, authenticating with a
wrong key produces an error and that error carries the `"authError"` type
tag (third conjunct of the theorem applied at this input). -/
theorem auth_success_iff_digest_matches_witness :
    (authUser demoHash dbAlice "c1" ⟨42, "Alice", "bad"⟩).2 =
      .error (.user "Unauthorized" "authError") ∧
    (∃ m, (Err.user "Unauthorized" "authError") = .user m "authError") :=
  ⟨by decide,
   (auth_success_iff_digest_matches demoHash dbAlice "c1" ⟨42, "Alice", "bad"⟩).2.2
     (.user "Unauthorized" "authError") (by decide)⟩

/-- C9: the status push computes its payload with `getGameStatus`: while the
status document says `playing = false` it is the snapshot
`{playing: false, players: [{name, order}, ...]}` listing the full roster
(the third `gameCode` field of each entry is absent on every player
document); while `playing = true` no snapshot is produced (the function
returns `undefined`, so nothing is pushed); and any failure while reading —
a store fault or a missing status document — is caught inside the function
and converted to the opaque internal-error value instead of escaping as an
exception. -/
theorem status_push_spec (gdb : GameDb) :
    (∀ st, gdb.status.head? = some st → st.playing = false →
      getGameStatus gdb false = some (.snapshot false
        (gdb.players.map fun p => { name := p.name, order := p.order, gameCode := p.gameCode }))) ∧
    (∀ st, gdb.status.head? = some st → st.playing = true →
      getGameStatus gdb false = none) ∧
    (gdb.status.head? = none →
      getGameStatus gdb false = some (.errorOut "An unexpected error occurred")) ∧
    (getGameStatus gdb true = some (.errorOut "An unexpected error occurred")) := by
  refine ⟨?_, ?_, ?_, ?_⟩
  · intro st hst hpl
    simp [getGameStatus, hst, hpl]
  · intro st hst hpl
    simp [getGameStatus, hst, hpl]
  · intro hst
    simp [getGameStatus, hst]
  · simp [getGameStatus]

/-- Witness for C9: on the concrete lobby of session 42 (one player Alice,
not playing), the push payload is the roster snapshot. -/
theorem status_push_spec_witness :
    getGameStatus (dbAlice.gameDbs 42) false =
      some (.snapshot false [{ name := "Alice", order := 1, gameCode := none }]) := by
  rw [(status_push_spec (dbAlice.gameDbs 42)).1 { playing := false, lastSignificantChange := 0 }
    (by decide) rfl]
  decide

theorem readStatusesGo_error (db : DB) (fault : Nat → Bool) :
    ∀ cs : List Nat, (∃ c ∈ cs, fault c = true) →
      readStatusesGo db fault cs = .error () := by
  intro cs
  induction cs with
  | nil =>
    rintro ⟨c, hc, -⟩
    cases hc
  | cons c cs ih =>
    rintro ⟨d, hd, hfd⟩
    cases hfc : fault c with
    | true => simp [readStatusesGo, hfc]
    | false =>
      rcases List.mem_cons.mp hd with rfl | hd2
      · rw [hfd] at hfc
        cases hfc
      · have hrec := ih ⟨d, hd2, hfd⟩
        simp [readStatusesGo, hfc, hrec]

/-- C8 amended: when the status read of any registered session faults, the
rejected promise aborts the whole `Promise.all`, the tick-level catch logs
it, and the sweep destroys nothing — the store is exactly as before the
tick. -/
theorem reaper_read_fault_skips_all_destruction (db : DB) (fault : Nat → Bool)
    (now ttl : Int) (hfault : ∃ c ∈ db.games, fault c = true) :
    reaperTick db fault now ttl = db := by
  unfold reaperTick
  rw [readStatusesGo_error db fault db.games hfault]

/-- Witness for the amended C8: on the two-session store with the session 1
read faulting, the tick leaves the store untouched. -/
theorem reaper_read_fault_skips_all_destruction_witness :
    (∃ c ∈ dbTwo.games, faultOne c = true) ∧
    reaperTick dbTwo faultOne 1000 10 = dbTwo :=
  ⟨⟨1, by decide, rfl⟩,
   reaper_read_fault_skips_all_destruction dbTwo faultOne 1000 10 ⟨1, by decide, rfl⟩⟩

theorem joinGame_not_registered (hash : String → String) (db : DB) (n : String) (c : Nat)
    (k : String) (hcon : db.games.contains c = false) :
    (joinGame hash db n c k).2 =
      .error (.user ("The game " ++ toString c ++ " does not exist.") "") := by
  have hmem : c ∉ db.games := by simpa using hcon
  simp [joinGame, hcon, hmem]

theorem joinGame_no_status (hash : String → String) (db : DB) (n : String) (c : Nat)
    (k : String) (hcon : db.games.contains c = true)
    (hst : (db.gameDbs c).status.head? = none) :
    (joinGame hash db n c k).2 =
      .error (.internal "TypeError: cannot read playing of null") := by
  have hmem : c ∈ db.games := by simpa using hcon
  simp [joinGame, hcon, hst, hmem]

theorem joinGame_in_progress (hash : String → String) (db : DB) (n : String) (c : Nat)
    (k : String) (st : StatusDoc) (hcon : db.games.contains c = true)
    (hst : (db.gameDbs c).status.head? = some st) (hpl : st.playing = true) :
    (joinGame hash db n c k).2 =
      .error (.user "Cannot join game. It is currently in progress." "") := by
  have hmem : c ∈ db.games := by simpa using hcon
  simp [joinGame, hcon, hst, hpl, hmem]

theorem joinGame_name_taken (hash : String → String) (db : DB) (n : String) (c : Nat)
    (k : String) (st : StatusDoc) (q : Player) (hcon : db.games.contains c = true)
    (hst : (db.gameDbs c).status.head? = some st) (hpl : st.playing = false)
    (hfind : (db.gameDbs c).players.find? (fun p => p.name == n) = some q) :
    (joinGame hash db n c k).2 =
      .error (.user "Your chosen name is in use by another player. Please use another name." "") := by
  have hmem : c ∈ db.games := by simpa using hcon
  have hex : ∃ x ∈ (db.gameDbs c).players, x.name = n := by
    have := List.find?_some hfind
    exact ⟨q, List.mem_of_find?_eq_some hfind, by simpa using this⟩
  simp [joinGame, hcon, hst, hpl, hfind, hmem, hex]

theorem joinGame_success (hash : String → String) (db : DB) (n : String) (c : Nat)
    (k : String) (st : StatusDoc) (hcon : db.games.contains c = true)
    (hst : (db.gameDbs c).status.head? = some st) (hpl : st.playing = false)
    (hfind : (db.gameDbs c).players.find? (fun p => p.name == n) = none)
    (hcap : ¬ 10 ≤ (db.gameDbs c).players.length) :
    (joinGame hash db n c k).2 = .ok { gameCode := c, name := n, key := k } ∧
    ((joinGame hash db n c k).1.gameDbs c).players =
      (db.gameDbs c).players ++
        [{ name := n, order := (db.gameDbs c).players.length + 1, hashedKey := hash k }] ∧
    (∀ d, d ≠ c → (joinGame hash db n c k).1.gameDbs d = db.gameDbs d) ∧
    (joinGame hash db n c k).1.games = db.games := by
  have hmem : c ∈ db.games := by simpa using hcon
  have hnex : ¬ ∃ x ∈ (db.gameDbs c).players, x.name = n := by
    rintro ⟨x, hx, hxn⟩
    have := List.find?_eq_none.mp hfind x hx
    simp [hxn] at this
  have h1 : joinGame hash db n c k =
      ({ db with gameDbs := setGameDb db.gameDbs c (GameDb.mk (db.gameDbs c).status ((db.gameDbs c).players ++ [Player.mk n ((db.gameDbs c).players.length + 1) (hash k) none none none])) }, .ok { gameCode := c, name := n, key := k }) := by
    simp [joinGame, hcon, hst, hpl, hfind, hcap, hmem, hnex]
  rw [h1]
  refine ⟨rfl, ?_, ?_, rfl⟩
  · simp [setGameDb_same]
  · intro d hd
    simp [setGameDb_ne _ _ hd]

theorem joinGame_full_fails (hash : String → String) (db : DB) (n : String) (c : Nat)
    (k : String) (hfull : 10 ≤ (db.gameDbs c).players.length) :
    (joinGame hash db n c k).1 = db ∧ ∀ r, (joinGame hash db n c k).2 ≠ .ok r := by
  simp only [joinGame]
  split
  · exact ⟨rfl, fun r h => by simp at h⟩
  · split
    · exact ⟨rfl, fun r h => by simp at h⟩
    · split
      · exact ⟨rfl, fun r h => by simp at h⟩
      · split
        · exact ⟨rfl, fun r h => by simp at h⟩
        · exact ⟨rfl, fun r h => by simp at h⟩

theorem joinGame_ok_roster (hash : String → String) (db : DB) (n : String) (c : Nat)
    (k : String) (r : JoinReply) (hok : (joinGame hash db n c k).2 = .ok r) :
    ((joinGame hash db n c k).1.gameDbs c).players =
      (db.gameDbs c).players ++
        [{ name := n, order := (db.gameDbs c).players.length + 1, hashedKey := hash k }] := by
  cases hcon : db.games.contains c with
  | false =>
    rw [joinGame_not_registered hash db n c k hcon] at hok
    simp at hok
  | true =>
    cases hst : (db.gameDbs c).status.head? with
    | none =>
      rw [joinGame_no_status hash db n c k hcon hst] at hok
      simp at hok
    | some st =>
      cases hpl : st.playing with
      | true =>
        rw [joinGame_in_progress hash db n c k st hcon hst hpl] at hok
        simp at hok
      | false =>
        cases hfind : (db.gameDbs c).players.find? (fun p => p.name == n) with
        | some q =>
          rw [joinGame_name_taken hash db n c k st q hcon hst hpl hfind] at hok
          simp at hok
        | none =>
          by_cases hcap : 10 ≤ (db.gameDbs c).players.length
          · rcases joinGame_full_fails hash db n c k hcap with ⟨-, hne⟩
            exact absurd hok (hne r)
          · exact (joinGame_success hash db n c k st hcon hst hpl hfind hcap).2.1

/-- C5 counterexample: the claim says a join against a session already
holding ten players fails with THE CAPACITY error.  The name check runs
before the capacity check, so joining the full session 9 under the already
present name Alice fails with the name-taken error, which is a different
error value. -/
theorem join_full_session_fails_with_name_taken :
    10 ≤ (dbFull.gameDbs 9).players.length ∧
    (joinGame demoHash dbFull "Alice" 9 "kx").2 =
      .error (.user "Your chosen name is in use by another player. Please use another name." "") ∧
    Err.user "Your chosen name is in use by another player. Please use another name." "" ≠
      Err.user "There are already 10 players in this game" "" := by
  decide

/-- C5 amended: on every reachable store no session roster exceeds ten
players; a join against a session already holding ten or more fails — with
the capacity error whenever the earlier checks pass (session registered, not
playing, name free) — and inserts nothing; and every successful join appends
exactly one player whose order is the prior roster size plus one. -/
theorem join_capacity_amended {hash : String → String} {db : DB} (hre : Reachable hash db) :
    (∀ c, (db.gameDbs c).players.length ≤ 10) ∧
    (∀ n c k, 10 ≤ (db.gameDbs c).players.length →
      (joinGame hash db n c k).1 = db ∧ ∀ r, (joinGame hash db n c k).2 ≠ .ok r) ∧
    (∀ n c k st, 10 ≤ (db.gameDbs c).players.length → c ∈ db.games →
      (db.gameDbs c).status.head? = some st → st.playing = false →
      (db.gameDbs c).players.find? (fun p => p.name == n) = none →
      (joinGame hash db n c k).2 =
        .error (.user "There are already 10 players in this game" "")) ∧
    (∀ n c k r, (joinGame hash db n c k).2 = .ok r →
      ((joinGame hash db n c k).1.gameDbs c).players =
        (db.gameDbs c).players ++
          [{ name := n, order := (db.gameDbs c).players.length + 1, hashedKey := hash k }]) := by
  refine ⟨fun c => (reachable_playersOK hre c).1, ?_, ?_, ?_⟩
  · intro n c k hfull
    exact joinGame_full_fails hash db n c k hfull
  · intro n c k st hfull hmem hst hpl hfree
    have hcon : db.games.contains c = true := by simpa using hmem
    have hnex : ¬ ∃ x ∈ (db.gameDbs c).players, x.name = n := by
      rintro ⟨x, hx, hxn⟩
      have := List.find?_eq_none.mp hfree x hx
      simp [hxn] at this
    simp [joinGame, hcon, hst, hpl, hfree, hfull, hmem, hnex]
  · intro n c k r hok
    exact joinGame_ok_roster hash db n c k r hok

/-- Witness for the amended C5: the full session 9 is reachable, holds ten
players, and a join under the fresh name K fails with the capacity error. -/
theorem join_capacity_amended_witness :
    10 ≤ (dbFull.gameDbs 9).players.length ∧
    (joinGame demoHash dbFull "K" 9 "kx").2 =
      .error (.user "There are already 10 players in this game" "") :=
  ⟨by decide,
   (join_capacity_amended ⟨opsFull, rfl⟩).2.2.1 "K" 9 "kx"
     { playing := false, lastSignificantChange := 0 }
     (by decide) (by decide) (by decide) rfl (by decide)⟩

/-- C6 amended: a successful removePlayer that deletes the last remaining
player of a session drops the per-session records, and — provided the
removal request's `gameCode` equals the session's own code — also removes
the registry entry, so that any subsequent authenticate with that session
code fails with the session-does-not-exist auth error. -/
theorem remove_last_player_destroys_session (hash : String → String) (db : DB)
    (sc : Nat) (req : RemovalReq) (p : Player) (st : StatusDoc)
    (hnd : db.games.Nodup)
    (hp : (db.gameDbs sc).players = [p])
    (hst : (db.gameDbs sc).status.head? = some st)
    (hpl : st.playing = false)
    (hname : req.name = p.name)
    (hcode : req.gameCode = sc) :
    (removePlayer db sc req).2 =
      .ok { playerToRemove := req, socketClientId := p.socketClientId } ∧
    sc ∉ (removePlayer db sc req).1.games ∧
    (removePlayer db sc req).1.gameDbs sc = emptyGameDb ∧
    (∀ cid nm key, (authUser hash (removePlayer db sc req).1 cid ⟨sc, nm, key⟩).2 =
      .error (.user "The game you are trying to enter does not exist" "authError")) := by
  have hfind : (db.gameDbs sc).players.find? (fun q => q.name == req.name) = some p := by
    rw [hp]
    exact List.find?_cons_of_pos [] (by simp [hname])
  have hdel : deleteFirst (fun q => q.name == req.name) (db.gameDbs sc).players = [] := by
    rw [hp]
    exact deleteFirst_cons_pos [] (by simp [hname])
  have h1 : removePlayer db sc req =
      ({ games := deleteFirst (fun c => c == req.gameCode) db.games,
         gameDbs := setGameDb db.gameDbs sc emptyGameDb },
       .ok { playerToRemove := req, socketClientId := p.socketClientId }) := by
    simp [removePlayer, hst, hpl, hfind, hdel]
  rw [h1]
  have hnotmem : sc ∉ deleteFirst (fun c => c == req.gameCode) db.games := by
    rw [hcode]
    exact not_mem_deleteFirst_self hnd
  refine ⟨rfl, hnotmem, setGameDb_same _ _ _, ?_⟩
  intro cid nm key
  have hcon : (deleteFirst (fun c => c == req.gameCode) db.games).contains sc = false := by
    simpa using hnotmem
  simp [authUser, hcon, hnotmem]

/-- Witness for the amended C6: removing Bob, the only player of session 42,
with a request whose gameCode matches, destroys the session and makes a
subsequent authenticate fail with the session-does-not-exist error. -/
theorem remove_last_player_destroys_session_witness :
    (removePlayer dbSolo 42 ⟨"Bob", 42⟩).2 =
      .ok { playerToRemove := ⟨"Bob", 42⟩, socketClientId := none } ∧
    42 ∉ (removePlayer dbSolo 42 ⟨"Bob", 42⟩).1.games ∧
    (authUser demoHash (removePlayer dbSolo 42 ⟨"Bob", 42⟩).1 "c9" ⟨42, "Bob", "kb"⟩).2 =
      .error (.user "The game you are trying to enter does not exist" "authError") := by
  have h := remove_last_player_destroys_session demoHash dbSolo 42 ⟨"Bob", 42⟩
    (Player.mk "Bob" 1 (demoHash "kb") none none none)
    { playing := false, lastSignificantChange := 0 }
    (by decide) (by decide) (by decide) rfl rfl rfl
  exact ⟨h.1, h.2.1, h.2.2.2 "c9" "Bob" "kb"⟩

theorem readStatusesGo_ok (db : DB) (fault : Nat → Bool) :
    ∀ cs : List Nat, (∀ c ∈ cs, fault c = false) →
      readStatusesGo db fault cs =
        .ok (cs.map fun c => (c, (db.gameDbs c).status.head?)) := by
  intro cs
  induction cs with
  | nil => intro _; rfl
  | cons c cs ih =>
    intro h
    have hc := h c (List.mem_cons_self c cs)
    have hrec := ih (fun d hd => h d (List.mem_cons_of_mem c hd))
    simp [readStatusesGo, hc, hrec]

theorem dropStep_gameDbs_ne (now ttl : Int) (acc : DB) (e : Nat × Option StatusDoc)
    (c : Nat) (hne : c ≠ e.1) : (dropStep now ttl acc e).gameDbs c = acc.gameDbs c := by
  unfold dropStep
  split
  · exact setGameDb_ne _ _ hne
  · rfl

theorem dropStep_mem_ne (now ttl : Int) (acc : DB) (e : Nat × Option StatusDoc)
    (c : Nat) (hne : c ≠ e.1) :
    (c ∈ (dropStep now ttl acc e).games ↔ c ∈ acc.games) := by
  unfold dropStep
  split
  · exact mem_deleteFirst_iff_of_ne hne
  · exact Iff.rfl

theorem dropStep_games_nodup (now ttl : Int) (acc : DB) (e : Nat × Option StatusDoc)
    (h : acc.games.Nodup) : (dropStep now ttl acc e).games.Nodup := by
  unfold dropStep
  split
  · exact nodup_deleteFirst h
  · exact h

theorem foldl_dropStep_frame (now ttl : Int) :
    ∀ (es : List (Nat × Option StatusDoc)) (acc : DB) (c : Nat),
      c ∉ es.map Prod.fst →
      ((es.foldl (dropStep now ttl) acc).gameDbs c = acc.gameDbs c ∧
       (c ∈ (es.foldl (dropStep now ttl) acc).games ↔ c ∈ acc.games)) := by
  intro es
  induction es with
  | nil =>
    intro acc c _
    exact ⟨rfl, Iff.rfl⟩
  | cons e es ih =>
    intro acc c hc
    have hne : c ≠ e.1 := fun h => hc (by simp [h])
    have hces : c ∉ es.map Prod.fst := fun h => hc (by simp [h])
    rcases ih (dropStep now ttl acc e) c hces with ⟨h1, h2⟩
    constructor
    · rw [List.foldl_cons, h1, dropStep_gameDbs_ne now ttl acc e c hne]
    · rw [List.foldl_cons]
      exact h2.trans (dropStep_mem_ne now ttl acc e c hne)

theorem foldl_dropStep_hit (now ttl : Int) :
    ∀ (es : List (Nat × Option StatusDoc)) (acc : DB), (es.map Prod.fst).Nodup →
      acc.games.Nodup → ∀ c st, (c, st) ∈ es →
      (shouldDie now ttl st = true →
        c ∉ (es.foldl (dropStep now ttl) acc).games ∧
        (es.foldl (dropStep now ttl) acc).gameDbs c = emptyGameDb) ∧
      (shouldDie now ttl st = false →
        ((c ∈ (es.foldl (dropStep now ttl) acc).games ↔ c ∈ acc.games) ∧
         (es.foldl (dropStep now ttl) acc).gameDbs c = acc.gameDbs c)) := by
  intro es
  induction es with
  | nil =>
    intro acc _ _ c st h
    cases h
  | cons e es ih =>
    intro acc hnd hga c st hmem
    have hnd2 : (e.1 :: es.map Prod.fst).Nodup := by simpa using hnd
    rcases List.nodup_cons.mp hnd2 with ⟨he, hes⟩
    rcases List.mem_cons.mp hmem with heq | hmem2
    · subst heq
      constructor
      · intro hdie
        have hstep : dropStep now ttl acc (c, st) =
            { games := deleteFirst (fun x => x == c) acc.games,
              gameDbs := setGameDb acc.gameDbs c emptyGameDb } := by
          unfold dropStep
          rw [if_pos hdie]
        rw [List.foldl_cons, hstep]
        rcases foldl_dropStep_frame now ttl es _ c he with ⟨h1, h2⟩
        constructor
        · intro hm
          exact not_mem_deleteFirst_self hga (h2.mp hm)
        · rw [h1]
          exact setGameDb_same _ _ _
      · intro hlive
        have hstep : dropStep now ttl acc (c, st) = acc := by
          unfold dropStep
          rw [if_neg]
          simp [hlive]
        rw [List.foldl_cons, hstep]
        rcases foldl_dropStep_frame now ttl es acc c he with ⟨h1, h2⟩
        exact ⟨h2, h1⟩
    · have hc_in : c ∈ es.map Prod.fst := List.mem_map.mpr ⟨(c, st), hmem2, rfl⟩
      have hnec : c ≠ e.1 := fun h => he (h ▸ hc_in)
      have hga2 : (dropStep now ttl acc e).games.Nodup := dropStep_games_nodup now ttl acc e hga
      have hkey := ih (dropStep now ttl acc e) hes hga2 c st hmem2
      constructor
      · intro hdie
        rcases hkey.1 hdie with ⟨hm, hdb⟩
        constructor
        · rw [List.foldl_cons]
          exact hm
        · rw [List.foldl_cons]
          exact hdb
      · intro hlive
        rcases hkey.2 hlive with ⟨hm, hdb⟩
        constructor
        · rw [List.foldl_cons]
          exact hm.trans (dropStep_mem_ne now ttl acc e c hnec)
        · rw [List.foldl_cons, hdb, dropStep_gameDbs_ne now ttl acc e c hnec]

/-- C7: when every status read succeeds, one reaper tick destroys exactly
the registered sessions whose status document is missing or whose
`lastSignificantChange` is older than `now - TTL` (registry entry removed
and per-session database dropped), while every session inside the TTL
window keeps its registry entry and its per-session database unchanged. -/
theorem reaper_tick_destroys_exactly_expired (db : DB) (fault : Nat → Bool)
    (now ttl : Int) (hnd : db.games.Nodup) (hf : ∀ c ∈ db.games, fault c = false) :
    ∀ c ∈ db.games,
      (((db.gameDbs c).status.head? = none ∨
        (∃ st, (db.gameDbs c).status.head? = some st ∧
          ttl < now - st.lastSignificantChange)) →
        c ∉ (reaperTick db fault now ttl).games ∧
        (reaperTick db fault now ttl).gameDbs c = emptyGameDb) ∧
      ((∃ st, (db.gameDbs c).status.head? = some st ∧
          now - st.lastSignificantChange ≤ ttl) →
        c ∈ (reaperTick db fault now ttl).games ∧
        (reaperTick db fault now ttl).gameDbs c = db.gameDbs c) := by
  intro c hc
  have hro := readStatusesGo_ok db fault db.games hf
  have hmapeq : ∀ l : List Nat,
      (l.map fun d => (d, (db.gameDbs d).status.head?)).map Prod.fst = l := by
    intro l
    induction l with
    | nil => rfl
    | cons x xs ih => simp only [List.map_cons, ih]
  have hmap : ((db.games.map fun d => (d, (db.gameDbs d).status.head?)).map Prod.fst).Nodup := by
    rw [hmapeq]
    exact hnd
  have hmem : (c, (db.gameDbs c).status.head?) ∈
      db.games.map (fun d => (d, (db.gameDbs d).status.head?)) :=
    List.mem_map.mpr ⟨c, hc, rfl⟩
  have hkey := foldl_dropStep_hit now ttl _ db hmap hnd c ((db.gameDbs c).status.head?) hmem
  have hrt : reaperTick db fault now ttl =
      (db.games.map fun d => (d, (db.gameDbs d).status.head?)).foldl (dropStep now ttl) db := by
    unfold reaperTick
    rw [hro]
  rw [hrt]
  constructor
  · intro hdie
    apply hkey.1
    rcases hdie with hnone | ⟨st, hst, hlt⟩
    · simp [shouldDie, hnone]
    · simp [shouldDie, hst, hlt]
  · rintro ⟨st, hst, hle⟩
    have hlive : shouldDie now ttl ((db.gameDbs c).status.head?) = false := by
      rw [hst]
      simp only [shouldDie, decide_eq_false_iff_not]
      omega
    rcases hkey.2 hlive with ⟨hm, hdb⟩
    exact ⟨hm.mpr hc, hdb⟩

/-- Witness for C7: on the two-session store `dbMix` (session 1 stamped 0,
session 2 stamped 500) a fault-free tick at time 1000 with TTL 600 destroys
session 1 and leaves session 2 untouched. -/
theorem reaper_tick_destroys_exactly_expired_witness :
    1 ∉ (reaperTick dbMix noFault 1000 600).games ∧
    2 ∈ (reaperTick dbMix noFault 1000 600).games ∧
    (reaperTick dbMix noFault 1000 600).gameDbs 2 = dbMix.gameDbs 2 := by
  have h1 := ((reaper_tick_destroys_exactly_expired dbMix noFault 1000 600 (by decide)
    (fun c _ => rfl)) 1 (by decide)).1
    (Or.inr ⟨{ playing := false, lastSignificantChange := 0 }, by decide, by decide⟩)
  have h2 := ((reaper_tick_destroys_exactly_expired dbMix noFault 1000 600 (by decide)
    (fun c _ => rfl)) 2 (by decide)).2
    ⟨{ playing := false, lastSignificantChange := 500 }, by decide, by decide⟩
  exact ⟨h1.1, h2.1, h2.2⟩

/-- C10 counterexample: the claim concludes that after every successful
changeName the renamed player can still authenticate under the new name with
the original key.  A rename onto an already-taken name succeeds (changeName
never checks availability), and then the by-name lookup finds the
pre-existing player first: in session 8, where Bob joined before Alice,
renaming Alice to Bob succeeds, and authenticating as Bob with Alice's
original key ka finds the original Bob and fails with Unauthorized. -/
theorem rename_onto_taken_name_breaks_auth :
    (changeName dbPairR 8 "Alice" "Bob").2 = .ok "Bob" ∧
    ((changeName dbPairR 8 "Alice" "Bob").1.gameDbs 8).players.map Player.name =
      ["Bob", "Bob"] ∧
    (authUser demoHash (changeName dbPairR 8 "Alice" "Bob").1 "c1" ⟨8, "Bob", "ka"⟩).2 =
      .error (.user "Unauthorized" "authError") := by
  decide

/-- C10 amended: a successful changeName(currentName, newName) rewrites only
the name field of the single matched player document — the first one bearing
currentName: `{p with name := newName}` keeps its order and hashedKey, every
other player document, the session's status collection, all other sessions
and the registry are unchanged; and, provided no other player already bore
newName (otherwise the by-name lookup finds that earlier record instead),
the renamed player still authenticates under the new name with the key
issued at join, since its digest still equals the untouched hashedKey. -/
theorem rename_frame_preserves_auth (hash : String → String) (db : DB) (g : Nat)
    (cur new key : String) (st : StatusDoc) (p : Player)
    (h1 : cur ≠ new) (h2 : new ≠ "")
    (h3 : (db.gameDbs g).status.head? = some st) (h4 : st.playing = false)
    (h5 : (db.gameDbs g).players.find? (fun q => q.name == cur) = some p)
    (h7 : hash key = p.hashedKey) (h8 : g ∈ db.games) :
    ∃ l₁ l₂,
      (db.gameDbs g).players = l₁ ++ p :: l₂ ∧
      (∀ x ∈ l₁, x.name ≠ cur) ∧
      (changeName db g cur new).2 = .ok new ∧
      ((changeName db g cur new).1.gameDbs g).players = l₁ ++ { p with name := new } :: l₂ ∧
      ((changeName db g cur new).1.gameDbs g).status = (db.gameDbs g).status ∧
      (∀ d, d ≠ g → (changeName db g cur new).1.gameDbs d = db.gameDbs d) ∧
      (changeName db g cur new).1.games = db.games ∧
      (∀ cid, (∀ q ∈ (db.gameDbs g).players, q.name ≠ new) →
        (authUser hash (changeName db g cur new).1 cid ⟨g, new, key⟩).2 =
          .ok { authenticated := true, name := new, gameCode := g }) := by
  rcases find?_decomp h5 with ⟨l₁, l₂, hdec, hneg, hqp, hupd, -⟩
  have hbne : (cur == new) = false := by simpa using h1
  have hbblank : (new == "") = false := by simpa using h2
  have hupd2 := hupd (fun q => { q with name := new })
  have hchange : changeName db g cur new =
      ({ db with gameDbs := setGameDb db.gameDbs g (GameDb.mk (db.gameDbs g).status (updateFirst (fun q => q.name == cur) (fun q => { q with name := new }) (db.gameDbs g).players)) }, .ok new) := by
    simp [changeName, hbne, hbblank, h3, h4, h5]
  refine ⟨l₁, l₂, hdec, ?_, ?_, ?_, ?_, ?_, ?_, ?_⟩
  · intro x hx
    have hxc := hneg x hx
    simpa using hxc
  · rw [hchange]
  · rw [hchange]
    simp only [setGameDb_same]
    exact hupd2
  · rw [hchange]
    simp only [setGameDb_same]
  · intro d hd
    rw [hchange]
    simp only [setGameDb_ne _ _ hd]
  · rw [hchange]
  · intro cid h6
    rw [hchange]
    have hcon : db.games.contains g = true := by simpa using h8
    have hfind2 : (updateFirst (fun q => q.name == cur) (fun q => { q with name := new })
        (db.gameDbs g).players).find? (fun q => q.name == new) =
        some { p with name := new } := by
      rw [hupd2]
      refine find?_append_first ?_ ?_
      · intro x hx
        have hxl : x ∈ (db.gameDbs g).players := by
          rw [hdec]
          exact List.mem_append.mpr (Or.inl hx)
        simpa using h6 x hxl
      · simp
    simp [authUser, hcon, h8, setGameDb_same, hfind2, h7]

/-- Witness for the amended C10: renaming Alice to Carol in session 7 (where
no player is named Carol) succeeds and Carol then authenticates with Alice's
original key. -/
theorem rename_frame_preserves_auth_witness :
    (changeName dbPair 7 "Alice" "Carol").2 = .ok "Carol" ∧
    (authUser demoHash (changeName dbPair 7 "Alice" "Carol").1 "c7" ⟨7, "Carol", "ka"⟩).2 =
      .ok { authenticated := true, name := "Carol", gameCode := 7 } := by
  have h := rename_frame_preserves_auth demoHash dbPair 7 "Alice" "Carol" "ka"
    { playing := false, lastSignificantChange := 0 }
    (Player.mk "Alice" 1 (demoHash "ka") none none none)
    (by decide) (by decide) (by decide) rfl (by decide) rfl (by decide)
  rcases h with ⟨l₁, l₂, -, -, hok, -, -, -, -, hauth⟩
  exact ⟨hok, hauth "c7" (by decide)⟩

end Resistance
